import Mathlib

/-!
Verification of the snake_game Vulkan bootstrap (src/src/vulkan.rs).

The file shallowly embeds the parts of the program the claims speak about:

* device selection (create_physical_device): filtering the enumerated
  physical devices by extension support and by the existence of a queue
  family with graphics and presentation support, then taking the minimum
  under the device-type ranking via min_by_key (first-seen wins on ties);
* swapchain creation (create_swapchain) and recreation (recreate_swapchain)
  together with framebuffer/viewport rebuilding (window_size_dependent_setup);
* the static vertex buffer (create_vertex_buffer);
* the event loop of setup: close, resize and redraw events, where a redraw
  tick performs cleanup, optional swapchain recreation, image acquisition,
  command-buffer recording, submission and present/flush, with the error
  policies of the source (out-of-date on acquire skips the tick, suboptimal
  sets the recreate flag, flush errors reset the in-flight future and are
  never fatal, unsupported dimensions on recreate are a silent no-op).

Driver/window behaviour that the program merely reacts to (which image index
acquisition returns, whether it is suboptimal or out of date, whether the
flush succeeds, whether a requested swapchain extent is supported) is
supplied as an oracle inside each redraw event, so the step function stays
an executable function of the event. Floating-point literals of the source
(vertex coordinates, clear color, viewport fields) are embedded as exact
rationals; the program performs no arithmetic on them, only storage and
comparison, so this is faithful.
-/

namespace SnakeVulkan

/-! ## Device selection (create_physical_device) -/

inductive PhysicalDeviceType
  | DiscreteGpu
  | IntegratedGpu
  | VirtualGpu
  | Cpu
  | Other
deriving DecidableEq, Repr

/-- One queue family of a physical device: whether it supports graphics, and
what Surface::is_supported reports for it (none models an Err, which the
source collapses with unwrap_or(false)). -/
structure QueueFamilyM where
  supports_graphics : Bool
  surface_support : Option Bool
deriving DecidableEq, Repr

/-- A physical device as the selector sees it: whether its supported
extensions are a superset of the required device extensions, its queue
families in enumeration order, and its device type. -/
structure PhysicalDeviceM where
  supports_required_extensions : Bool
  queue_families : List QueueFamilyM
  device_type : PhysicalDeviceType
deriving DecidableEq, Repr

/-- The ranking key of create_physical_device's min_by_key. -/
def device_type_rank : PhysicalDeviceType → Nat
  | PhysicalDeviceType.DiscreteGpu => 0
  | PhysicalDeviceType.IntegratedGpu => 1
  | PhysicalDeviceType.VirtualGpu => 2
  | PhysicalDeviceType.Cpu => 3
  | PhysicalDeviceType.Other => 4

/-- The predicate of the inner find: q.supports_graphics() and
surface.is_supported(q).unwrap_or(false). -/
def queue_family_ok (q : QueueFamilyM) : Bool :=
  q.supports_graphics && q.surface_support.getD false

/-- p.queue_families().find(...) of the source. -/
def find_queue_family (p : PhysicalDeviceM) : Option QueueFamilyM :=
  p.queue_families.find? queue_family_ok

/-- The candidate pairs surviving the two filter stages of
create_physical_device, in enumeration order. -/
def qualifying (devices : List PhysicalDeviceM) :
    List (PhysicalDeviceM × QueueFamilyM) :=
  (devices.filter (fun p => p.supports_required_extensions)).filterMap
    (fun p => (find_queue_family p).map (fun q => (p, q)))

/-- Rust's Iterator::min_by_key: the first element attaining the minimal key
(a left fold that only replaces the accumulator on a strictly smaller key). -/
def min_by_key {α : Type} (key : α → Nat) : List α → Option α
  | [] => none
  | x :: xs => some (xs.foldl (fun acc y => if key y < key acc then y else acc) x)

def pair_rank (pq : PhysicalDeviceM × QueueFamilyM) : Nat :=
  device_type_rank pq.1.device_type

/-- create_physical_device: filter by extensions, find a graphics+present
queue family, and take the minimum-ranked pair (none models the final
unwrap panicking on an empty candidate set). -/
def create_physical_device (devices : List PhysicalDeviceM) :
    Option (PhysicalDeviceM × QueueFamilyM) :=
  min_by_key pair_rank (qualifying devices)

/-! ## Swapchain, framebuffers, viewport -/

abbrev Dims := Nat × Nat

structure ImageM where
  dimensions : Dims
deriving DecidableEq, Repr

structure FramebufferM where
  dimensions : Dims
deriving DecidableEq, Repr

/-- A viewport; the source stores f32 fields, embedded as exact rationals. -/
structure ViewportM where
  origin : ℚ × ℚ
  dimensions : ℚ × ℚ
  depth_range : ℚ × ℚ
deriving DecidableEq, Repr

/-- The flags of vulkano's ImageUsage that the swapchain builder can set. -/
structure ImageUsageM where
  color_attachment : Bool
  transfer_source : Bool
  transfer_destination : Bool
  sampled : Bool
  storage : Bool
  depth_stencil_attachment : Bool
  transient_attachment : Bool
  input_attachment : Bool
deriving DecidableEq, Repr

/-- ImageUsage::color_attachment(): only the color_attachment flag set. -/
def image_usage_color_attachment : ImageUsageM :=
  { color_attachment := true
    transfer_source := false
    transfer_destination := false
    sampled := false
    storage := false
    depth_stencil_attachment := false
    transient_attachment := false
    input_attachment := false }

inductive SharingModeM
  | exclusive
  | concurrent
deriving DecidableEq, Repr

/-- The parameters a built swapchain carries (formats and composite-alpha
modes are identified by opaque numeric codes). -/
structure SwapchainM where
  num_images : Nat
  format : Nat
  dimensions : Dims
  usage : ImageUsageM
  sharing : SharingModeM
  composite_alpha : Nat
deriving DecidableEq, Repr

/-- What surface.capabilities(physical_device) reports. -/
structure SurfaceCapabilitiesM where
  min_image_count : Nat
  supported_formats : List Nat
  supported_composite_alpha : List Nat
deriving DecidableEq, Repr

/-- The images a built swapchain hands back: one per requested image, each
of the swapchain's dimensions. -/
def swapchain_images (sc : SwapchainM) : List ImageM :=
  List.replicate sc.num_images { dimensions := sc.dimensions }

/-- create_swapchain: num_images = caps.min_image_count, format =
caps.supported_formats[0].0, dimensions = the window's inner size, usage =
ImageUsage::color_attachment(), sharing exclusive to the single queue,
composite_alpha = the first supported mode. -/
def create_swapchain (caps : SurfaceCapabilitiesM) (dims : Dims) :
    SwapchainM × List ImageM :=
  let sc : SwapchainM :=
    { num_images := caps.min_image_count
      format := caps.supported_formats.getD 0 0
      dimensions := dims
      usage := image_usage_color_attachment
      sharing := SharingModeM.exclusive
      composite_alpha := caps.supported_composite_alpha.getD 0 0 }
  (sc, swapchain_images sc)

/-- The viewport window_size_dependent_setup builds from image dimensions:
origin (0,0), the dimensions as floats, depth range 0..1. -/
def mk_viewport (d : Dims) : ViewportM :=
  { origin := (0, 0)
    dimensions := ((d.1 : ℚ), (d.2 : ℚ))
    depth_range := (0, 1) }

/-- window_size_dependent_setup: reads images[0].dimensions into the stored
viewport and builds one framebuffer per image. -/
def window_size_dependent_setup (images : List ImageM) :
    ViewportM × List FramebufferM :=
  let dims := (images.getD 0 { dimensions := (0, 0) }).dimensions
  (mk_viewport dims, images.map (fun img => { dimensions := img.dimensions }))

/-- create_viewport: the placeholder viewport built before the framebuffers
exist. -/
def create_viewport : ViewportM :=
  { origin := (0, 0), dimensions := (0, 0), depth_range := (0, 1) }

/-! ## Static geometry -/

/-- The three vertices of create_vertex_buffer, in order. -/
def vertex_data : List (ℚ × ℚ) :=
  [(1/2, 1/2), (-1/2, 1/2), (0, -1/2)]

/-! ## The frame loop -/

/-- The in-flight future: sync::now(device) is the trivial already-completed
future; pending is the boxed fence future of a submitted frame. -/
inductive GpuFutureM
  | now
  | pending
deriving DecidableEq, Repr

/-- The mutable fields of the Vulkan struct that the event loop reads or
writes. The images field is set at startup and, as in the source, never
updated by recreate_swapchain. -/
structure VulkanStateM where
  window_size : Dims
  swapchain : SwapchainM
  images : List ImageM
  vertex_buffer : List (ℚ × ℚ)
  viewport : ViewportM
  framebuffers : List FramebufferM
  recreate_swapchain : Bool
  previous_frame_end : GpuFutureM
deriving DecidableEq, Repr

/-- What swapchain::acquire_next_image reports on a given tick. -/
inductive AcquireResultM
  | ok (image_num : Nat) (suboptimal : Bool)
  | out_of_date
  | other_error
deriving DecidableEq, Repr

/-- What then_signal_fence_and_flush reports on a given tick. -/
inductive FlushResultM
  | ok
  | out_of_date
  | other_error
deriving DecidableEq, Repr

/-- What swapchain.recreate().dimensions(d).build() reports. -/
inductive SwapchainBuildResultM
  | ok
  | unsupported_dimensions
  | other_error
deriving DecidableEq, Repr

/-- The driver oracle for one redraw tick. -/
structure TickInputM where
  acquire : AcquireResultM
  flush : FlushResultM
  recreate_build : SwapchainBuildResultM
deriving DecidableEq, Repr

inductive EventM
  | close_requested
  | resized (dims : Dims)
  | redraw_events_cleared (input : TickInputM)
  | other
deriving DecidableEq, Repr

inductive SubpassContentsM
  | inline
  | secondary
deriving DecidableEq, Repr

/-- The commands recorded into the frame's command buffer. -/
inductive CommandM
  | begin_render_pass (framebuffer : FramebufferM) (contents : SubpassContentsM)
      (clears : List (ℚ × ℚ × ℚ × ℚ))
  | set_viewport (first : Nat) (viewports : List ViewportM)
  | bind_pipeline_graphics
  | bind_vertex_buffers (first : Nat) (vertices : List (ℚ × ℚ))
  | draw (vertex_count : Nat) (instance_count : Nat) (first_vertex : Nat)
      (first_instance : Nat)
  | end_render_pass
deriving DecidableEq, Repr

/-- The clear values of the redraw tick: color (0.1, 0.1, 0.1, 1.0). -/
def clear_values : List (ℚ × ℚ × ℚ × ℚ) :=
  [(1/10, 1/10, 1/10, 1)]

/-- The command buffer the redraw tick records: begin render pass on
framebuffers[image_num] with the clear color, set the viewport, bind the
pipeline and the vertex buffer, draw vertex_buffer.len() vertices and one
instance, end the render pass. -/
def record_command_buffer (s : VulkanStateM) (image_num : Nat) : List CommandM :=
  [ CommandM.begin_render_pass (s.framebuffers.getD image_num { dimensions := (0, 0) })
      SubpassContentsM.inline clear_values
  , CommandM.set_viewport 0 [s.viewport]
  , CommandM.bind_pipeline_graphics
  , CommandM.bind_vertex_buffers 0 s.vertex_buffer
  , CommandM.draw s.vertex_buffer.length 1 0 0
  , CommandM.end_render_pass ]

inductive PanicMsgM
  | failed_to_acquire_next_image
  | failed_to_recreate_swapchain
  | index_out_of_bounds
deriving DecidableEq, Repr

inductive LogM
  | failed_to_flush_future
deriving DecidableEq, Repr

inductive RecreateOutcomeM
  | ok (s : VulkanStateM)
  | panicked (msg : PanicMsgM)
deriving DecidableEq, Repr

/-- recreate_swapchain: read the window's inner size, rebuild the swapchain
with those dimensions; on UnsupportedDimensions return with the state
untouched; on any other build error panic; on success replace the swapchain,
rebuild viewport and framebuffers via window_size_dependent_setup, and clear
the recreate flag (the images field is left stale, as in the source). -/
def recreate_swapchain (s : VulkanStateM) (build : SwapchainBuildResultM) :
    RecreateOutcomeM :=
  let dims := s.window_size
  match build with
  | SwapchainBuildResultM.unsupported_dimensions => RecreateOutcomeM.ok s
  | SwapchainBuildResultM.other_error =>
      RecreateOutcomeM.panicked PanicMsgM.failed_to_recreate_swapchain
  | SwapchainBuildResultM.ok =>
      let new_swapchain : SwapchainM := { s.swapchain with dimensions := dims }
      let new_images := swapchain_images new_swapchain
      let vf := window_size_dependent_setup new_images
      RecreateOutcomeM.ok
        { s with
          swapchain := new_swapchain
          viewport := vf.1
          framebuffers := vf.2
          recreate_swapchain := false }

/-- What one event handler invocation produced besides the new state. -/
structure TickEffectsM where
  submitted : Option (List CommandM)
  logs : List LogM
deriving DecidableEq, Repr

def no_effects : TickEffectsM := { submitted := none, logs := [] }

inductive StepResultM
  | next (s : VulkanStateM) (eff : TickEffectsM)
  | exit (s : VulkanStateM)
  | panicked (msg : PanicMsgM)
deriving DecidableEq, Repr

/-- The guarded recreation at the top of the redraw tick. -/
def recreate_phase (s : VulkanStateM) (input : TickInputM) : RecreateOutcomeM :=
  if s.recreate_swapchain then recreate_swapchain s input.recreate_build
  else RecreateOutcomeM.ok s

/-- The record-and-submit tail of the redraw tick: record the command
buffer (indexing framebuffers[image_num] panics when out of bounds), submit
it and flush (ok stores the frame's fence future; out-of-date sets the
recreate flag and resets the future to sync::now; any other flush error
logs and resets the future to sync::now; no flush outcome is fatal). -/
def submit_phase (smid : VulkanStateM) (image_num : Nat) (flush : FlushResultM) :
    StepResultM :=
  if image_num < smid.framebuffers.length then
    match flush with
    | FlushResultM.ok =>
        StepResultM.next { smid with previous_frame_end := GpuFutureM.pending }
          { submitted := some (record_command_buffer smid image_num), logs := [] }
    | FlushResultM.out_of_date =>
        StepResultM.next
          { smid with recreate_swapchain := true
                      previous_frame_end := GpuFutureM.now }
          { submitted := some (record_command_buffer smid image_num), logs := [] }
    | FlushResultM.other_error =>
        StepResultM.next { smid with previous_frame_end := GpuFutureM.now }
          { submitted := some (record_command_buffer smid image_num)
            logs := [LogM.failed_to_flush_future] }
  else StepResultM.panicked PanicMsgM.index_out_of_bounds

/-- The acquire step and what follows it: out-of-date sets the recreate
flag and skips the remainder of the tick, other acquire errors panic, a
successful acquire that is suboptimal sets the recreate flag but continues
into record-and-submit. -/
def acquire_phase (s1 : VulkanStateM) (input : TickInputM) : StepResultM :=
  match input.acquire with
  | AcquireResultM.out_of_date =>
      StepResultM.next { s1 with recreate_swapchain := true } no_effects
  | AcquireResultM.other_error =>
      StepResultM.panicked PanicMsgM.failed_to_acquire_next_image
  | AcquireResultM.ok image_num suboptimal =>
      submit_phase
        (if suboptimal then { s1 with recreate_swapchain := true } else s1)
        image_num input.flush

/-- One RedrawEventsCleared tick: cleanup_finished (no state in the model),
recreate if flagged, then acquire and record-and-submit. -/
def step_redraw (s : VulkanStateM) (input : TickInputM) : StepResultM :=
  match recreate_phase s input with
  | RecreateOutcomeM.panicked msg => StepResultM.panicked msg
  | RecreateOutcomeM.ok s1 => acquire_phase s1 input

/-- The event-loop closure of setup. -/
def handle_event (s : VulkanStateM) (e : EventM) : StepResultM :=
  match e with
  | EventM.close_requested => StepResultM.exit s
  | EventM.resized dims =>
      StepResultM.next { s with window_size := dims, recreate_swapchain := true }
        no_effects
  | EventM.redraw_events_cleared input => step_redraw s input
  | EventM.other => StepResultM.next s no_effects

/-- The state setup builds before entering the event loop: swapchain and
images from the surface capabilities and window size, the fixed vertex
buffer, the placeholder viewport of create_viewport overwritten by
create_framebuffers (which runs window_size_dependent_setup on the images),
recreate flag clear, and the trivial sync::now future. -/
def init_state (caps : SurfaceCapabilitiesM) (window_size : Dims) : VulkanStateM :=
  let sci := create_swapchain caps window_size
  let vf := window_size_dependent_setup sci.2
  { window_size := window_size
    swapchain := sci.1
    images := sci.2
    vertex_buffer := vertex_data
    viewport := vf.1
    framebuffers := vf.2
    recreate_swapchain := false
    previous_frame_end := GpuFutureM.now }

/-- The states the event loop can be in: the initial state for the given
surface capabilities and any startup window size, closed under non-exiting
event-handler steps. -/
inductive Reachable (caps : SurfaceCapabilitiesM) : VulkanStateM → Prop
  | init (w : Dims) : Reachable caps (init_state caps w)
  | step (s : VulkanStateM) (e : EventM) (s2 : VulkanStateM) (eff : TickEffectsM) :
      Reachable caps s → handle_event s e = StepResultM.next s2 eff →
      Reachable caps s2

/-! ## State predicates used by the theorems -/

/-- Every live framebuffer has the live window's dimensions. -/
def all_fbs_match (s : VulkanStateM) : Prop :=
  ∀ fb ∈ s.framebuffers, fb.dimensions = s.window_size

/-- If the command buffer begins a render pass, the framebuffer it renders
into has the live window's dimensions. -/
def rendered_fb_matches (cb : List CommandM) (s : VulkanStateM) : Prop :=
  ∀ fb c cvs, cb.head? = some (CommandM.begin_render_pass fb c cvs) →
    fb.dimensions = s.window_size

/-- Whenever no recreation is pending, the framebuffers match the window. -/
def fb_fresh (s : VulkanStateM) : Prop :=
  s.recreate_swapchain = false → all_fbs_match s

/-- The framebuffers are exactly the ones window_size_dependent_setup builds
from the current swapchain's images. -/
def fb_canonical (s : VulkanStateM) : Prop :=
  s.framebuffers = (window_size_dependent_setup (swapchain_images s.swapchain)).2

/-- The stored viewport is exactly the one window_size_dependent_setup built
from the current swapchain's images. -/
def viewport_canonical (s : VulkanStateM) : Prop :=
  s.viewport = (window_size_dependent_setup (swapchain_images s.swapchain)).1

/-- The loop invariant: the vertex buffer is the startup triangle, the
framebuffers and viewport are canonical for the current swapchain, the
swapchain carries the creation parameters derived from the surface
capabilities, and when no recreation is pending the swapchain (hence every
framebuffer) has the live window's dimensions. -/
def Inv (caps : SurfaceCapabilitiesM) (s : VulkanStateM) : Prop :=
  s.vertex_buffer = vertex_data ∧
  fb_canonical s ∧
  viewport_canonical s ∧
  s.swapchain.num_images = caps.min_image_count ∧
  s.swapchain.format = caps.supported_formats.getD 0 0 ∧
  s.swapchain.composite_alpha = caps.supported_composite_alpha.getD 0 0 ∧
  s.swapchain.usage = image_usage_color_attachment ∧
  s.swapchain.sharing = SharingModeM.exclusive ∧
  (s.recreate_swapchain = false → s.swapchain.dimensions = s.window_size)

/-! ## Concrete instances for witnesses and counterexamples -/

def qf0 : QueueFamilyM := { supports_graphics := true, surface_support := some true }

def dev_integrated : PhysicalDeviceM :=
  { supports_required_extensions := true
    queue_families := [qf0]
    device_type := PhysicalDeviceType.IntegratedGpu }

def dev_discrete : PhysicalDeviceM :=
  { supports_required_extensions := true
    queue_families := [qf0]
    device_type := PhysicalDeviceType.DiscreteGpu }

def caps0 : SurfaceCapabilitiesM :=
  { min_image_count := 2, supported_formats := [7, 8], supported_composite_alpha := [1, 2] }

/-- The startup state for an 800 x 600 window. -/
def s800 : VulkanStateM := init_state caps0 (800, 600)

def tick_ok : TickInputM :=
  { acquire := AcquireResultM.ok 0 false
    flush := FlushResultM.ok
    recreate_build := SwapchainBuildResultM.ok }

def tick_acquire_ood : TickInputM :=
  { acquire := AcquireResultM.out_of_date
    flush := FlushResultM.ok
    recreate_build := SwapchainBuildResultM.ok }

def tick_flush_ood : TickInputM :=
  { acquire := AcquireResultM.ok 0 false
    flush := FlushResultM.out_of_date
    recreate_build := SwapchainBuildResultM.ok }

def tick_unsup : TickInputM :=
  { acquire := AcquireResultM.ok 0 false
    flush := FlushResultM.ok
    recreate_build := SwapchainBuildResultM.unsupported_dimensions }

/-- s800 after a Resized(400, 300) event: flag set, framebuffers untouched. -/
def s_resized : VulkanStateM :=
  { s800 with window_size := (400, 300), recreate_swapchain := true }

/-- s_resized after a redraw tick whose recreation was skipped for
unsupported dimensions and whose acquire and flush succeeded. -/
def s_stale : VulkanStateM :=
  { s_resized with previous_frame_end := GpuFutureM.pending }

/-- The command buffer that stale tick records. -/
def cb_stale : List CommandM := record_command_buffer s_resized 0

/-- s800 after one fully successful redraw tick. -/
def s_after_ok : VulkanStateM :=
  { s800 with previous_frame_end := GpuFutureM.pending }

/-- The command buffer of a successful tick from s800. -/
def cb800 : List CommandM := record_command_buffer s800 0

/-! ## Helper lemmas: min_by_key -/

/-- The left fold behind min_by_key returns an element of the list that is a
first-seen minimum: the list splits around it, every earlier element has a
strictly larger key, and no element has a smaller key. -/
lemma foldl_min_spec {α : Type} (key : α → Nat) (xs : List α) (x : α) :
    ∃ l₁ l₂,
      x :: xs = l₁ ++ (xs.foldl (fun acc y => if key y < key acc then y else acc) x) :: l₂ ∧
      (∀ y ∈ l₁, key (xs.foldl (fun acc y => if key y < key acc then y else acc) x) < key y) ∧
      (∀ y ∈ x :: xs, key (xs.foldl (fun acc y => if key y < key acc then y else acc) x) ≤ key y) := by
  induction xs generalizing x with
  | nil => exact ⟨[], [], rfl, by simp, by simp⟩
  | cons y ys ih =>
    simp only [List.foldl_cons]
    by_cases hxy : key y < key x
    · simp only [if_pos hxy]
      obtain ⟨l₁, l₂, hsplit, hlt, hle⟩ := ih y
      refine ⟨x :: l₁, l₂, ?_, ?_, ?_⟩
      · rw [List.cons_append, ← hsplit]
      · intro z hz
        rcases List.mem_cons.mp hz with rfl | hz
        · exact lt_of_le_of_lt (hle y (List.mem_cons_self y ys)) hxy
        · exact hlt z hz
      · intro z hz
        rcases List.mem_cons.mp hz with rfl | hz
        · exact le_of_lt (lt_of_le_of_lt (hle y (List.mem_cons_self y ys)) hxy)
        · exact hle z hz
    · simp only [if_neg hxy]
      push_neg at hxy
      obtain ⟨l₁, l₂, hsplit, hlt, hle⟩ := ih x
      generalize hgen : List.foldl (fun acc y => if key y < key acc then y else acc) x ys = m
        at hsplit hlt hle ⊢
      cases l₁ with
      | nil =>
        rw [List.nil_append] at hsplit
        injection hsplit with h1 h2
        have hmx : key m = key x := congrArg key h1.symm
        refine ⟨[], y :: l₂, ?_, by simp, ?_⟩
        · rw [List.nil_append, ← h1, ← h2]
        · intro z hz
          rcases List.mem_cons.mp hz with rfl | hz
          · exact hmx.le
          · rcases List.mem_cons.mp hz with rfl | hz
            · exact hmx.le.trans hxy
            · exact hle z (List.mem_cons_of_mem x hz)
      | cons a l₁' =>
        rw [List.cons_append] at hsplit
        injection hsplit with h1 h2
        have hmx : key m < key x := by rw [h1]; exact hlt a (List.mem_cons_self _ _)
        refine ⟨x :: y :: l₁', l₂, ?_, ?_, ?_⟩
        · rw [List.cons_append, List.cons_append, ← h2]
        · intro z hz
          rcases List.mem_cons.mp hz with rfl | hz
          · exact hmx
          · rcases List.mem_cons.mp hz with rfl | hz
            · exact hmx.trans_le hxy
            · exact hlt z (List.mem_cons_of_mem a hz)
        · intro z hz
          rcases List.mem_cons.mp hz with rfl | hz
          · exact hmx.le
          · rcases List.mem_cons.mp hz with rfl | hz
            · exact (hmx.trans_le hxy).le
            · exact hle z (List.mem_cons_of_mem x hz)

/-- min_by_key returns the first-seen minimum-key element of the list. -/
lemma min_by_key_spec {α : Type} (key : α → Nat) (l : List α) (m : α)
    (h : min_by_key key l = some m) :
    ∃ l₁ l₂, l = l₁ ++ m :: l₂ ∧ (∀ y ∈ l₁, key m < key y) ∧ (∀ y ∈ l, key m ≤ key y) := by
  cases l with
  | nil => simp [min_by_key] at h
  | cons x xs =>
    simp only [min_by_key, Option.some.injEq] at h
    subst h
    exact foldl_min_spec key xs x

/-- Members of the qualifying list support the required extensions and have
a queue family with graphics and presentation support. -/
lemma mem_qualifying {devices : List PhysicalDeviceM}
    {pq : PhysicalDeviceM × QueueFamilyM} (h : pq ∈ qualifying devices) :
    pq.1.supports_required_extensions = true ∧ queue_family_ok pq.2 = true := by
  simp only [qualifying, List.mem_filterMap] at h
  obtain ⟨p, hp, hmap⟩ := h
  rw [Option.map_eq_some'] at hmap
  obtain ⟨q, hfind, hpq⟩ := hmap
  subst hpq
  exact ⟨(List.mem_filter.mp hp).2, List.find?_some hfind⟩

/-- Only the discrete GPU type has rank 0. -/
lemma rank_eq_zero {t : PhysicalDeviceType} (h : device_type_rank t = 0) :
    t = PhysicalDeviceType.DiscreteGpu := by
  cases t <;> simp_all [device_type_rank]

/-! ## C1 -/

/-- C1: create_physical_device keeps only candidates that support the
required extensions and have a queue family with graphics and presentation
support, and among those returns the minimum under the device-type ranking
(discrete 0, integrated 1, virtual 2, cpu 3, other 4), breaking ties by
enumeration order (every earlier qualifying candidate has a strictly larger
rank); in particular a qualifying discrete GPU is never passed over. -/
theorem create_physical_device_selects_best (devices : List PhysicalDeviceM)
    (pq : PhysicalDeviceM × QueueFamilyM)
    (h : create_physical_device devices = some pq) :
    pq ∈ qualifying devices ∧
    pq.1.supports_required_extensions = true ∧
    queue_family_ok pq.2 = true ∧
    (∀ pq2 ∈ qualifying devices, pair_rank pq ≤ pair_rank pq2) ∧
    (∃ l₁ l₂, qualifying devices = l₁ ++ pq :: l₂ ∧
      ∀ pq2 ∈ l₁, pair_rank pq < pair_rank pq2) ∧
    (∀ pq2 ∈ qualifying devices,
      pq2.1.device_type = PhysicalDeviceType.DiscreteGpu →
      pq.1.device_type = PhysicalDeviceType.DiscreteGpu) := by
  obtain ⟨l₁, l₂, hsplit, hlt, hle⟩ :=
    min_by_key_spec pair_rank (qualifying devices) pq h
  have hmem : pq ∈ qualifying devices := by
    rw [hsplit]; exact List.mem_append_right _ (List.mem_cons_self _ _)
  obtain ⟨hext, hqf⟩ := mem_qualifying hmem
  refine ⟨hmem, hext, hqf, hle, ⟨l₁, l₂, hsplit, hlt⟩, ?_⟩
  intro pq2 hpq2 hdisc
  have h0 : pair_rank pq ≤ pair_rank pq2 := hle pq2 hpq2
  have h2 : pair_rank pq2 = 0 := by simp [pair_rank, hdisc, device_type_rank]
  have h3 : pair_rank pq = 0 := Nat.le_antisymm (h2 ▸ h0) (Nat.zero_le _)
  exact rank_eq_zero h3

/-- C1 witness: with a qualifying integrated GPU enumerated before a
qualifying discrete GPU, the selector returns the discrete one. -/
theorem create_physical_device_selects_best_witness :
    (dev_discrete, qf0) ∈ qualifying [dev_integrated, dev_discrete] ∧
    (dev_discrete, qf0).1.device_type = PhysicalDeviceType.DiscreteGpu := by
  have h := create_physical_device_selects_best [dev_integrated, dev_discrete]
    (dev_discrete, qf0) rfl
  exact ⟨h.1, h.2.2.2.2.2 (dev_discrete, qf0) h.1 rfl⟩

/-! ## Helper lemmas: the frame loop -/

/-- Inversion for submit_phase: a continuing result means the image index
was in range and the recorded command buffer was submitted, with the state
and log updates determined by the flush outcome. -/
lemma submit_phase_inv (smid : VulkanStateM) (n : Nat) (f : FlushResultM)
    (s2 : VulkanStateM) (eff : TickEffectsM)
    (h : submit_phase smid n f = StepResultM.next s2 eff) :
    n < smid.framebuffers.length ∧
    eff.submitted = some (record_command_buffer smid n) ∧
    ((f = FlushResultM.ok ∧
      s2 = { smid with previous_frame_end := GpuFutureM.pending } ∧ eff.logs = []) ∨
     (f = FlushResultM.out_of_date ∧
      s2 = { smid with recreate_swapchain := true,
                       previous_frame_end := GpuFutureM.now } ∧ eff.logs = []) ∨
     (f = FlushResultM.other_error ∧
      s2 = { smid with previous_frame_end := GpuFutureM.now } ∧
      eff.logs = [LogM.failed_to_flush_future])) := by
  unfold submit_phase at h
  by_cases hn : n < smid.framebuffers.length
  · rw [if_pos hn] at h
    cases f with
    | ok =>
      injection h with h1 h2
      exact ⟨hn, by rw [← h2], Or.inl ⟨rfl, h1.symm, by rw [← h2]⟩⟩
    | out_of_date =>
      injection h with h1 h2
      exact ⟨hn, by rw [← h2], Or.inr (Or.inl ⟨rfl, h1.symm, by rw [← h2]⟩)⟩
    | other_error =>
      injection h with h1 h2
      exact ⟨hn, by rw [← h2], Or.inr (Or.inr ⟨rfl, h1.symm, by rw [← h2]⟩)⟩
  · rw [if_neg hn] at h
    exact StepResultM.noConfusion h

/-- submit_phase continues (is not fatal) for every flush outcome as soon
as the image index is in range. -/
lemma submit_phase_total (smid : VulkanStateM) (n : Nat) (f : FlushResultM)
    (hn : n < smid.framebuffers.length) :
    ∃ s2 eff, submit_phase smid n f = StepResultM.next s2 eff := by
  unfold submit_phase
  rw [if_pos hn]
  cases f
  · exact ⟨_, _, rfl⟩
  · exact ⟨_, _, rfl⟩
  · exact ⟨_, _, rfl⟩

/-- Inversion for acquire_phase. -/
lemma acquire_phase_inv (s1 : VulkanStateM) (input : TickInputM)
    (s2 : VulkanStateM) (eff : TickEffectsM)
    (h : acquire_phase s1 input = StepResultM.next s2 eff) :
    (input.acquire = AcquireResultM.out_of_date ∧
     s2 = { s1 with recreate_swapchain := true } ∧ eff = no_effects) ∨
    (∃ n sub, input.acquire = AcquireResultM.ok n sub ∧
      submit_phase (if sub then { s1 with recreate_swapchain := true } else s1) n
        input.flush = StepResultM.next s2 eff) := by
  unfold acquire_phase at h
  cases hacq : input.acquire with
  | out_of_date =>
    rw [hacq] at h
    injection h with h1 h2
    exact Or.inl ⟨rfl, h1.symm, h2.symm⟩
  | other_error =>
    rw [hacq] at h
    exact StepResultM.noConfusion h
  | ok n sub =>
    rw [hacq] at h
    exact Or.inr ⟨n, sub, rfl, h⟩

/-- Inversion for step_redraw. -/
lemma step_redraw_next_inv (s : VulkanStateM) (input : TickInputM)
    (s2 : VulkanStateM) (eff : TickEffectsM)
    (h : step_redraw s input = StepResultM.next s2 eff) :
    ∃ s1, recreate_phase s input = RecreateOutcomeM.ok s1 ∧
      acquire_phase s1 input = StepResultM.next s2 eff := by
  unfold step_redraw at h
  cases hrp : recreate_phase s input with
  | panicked msg => rw [hrp] at h; exact StepResultM.noConfusion h
  | ok s1 => rw [hrp] at h; exact ⟨s1, rfl, h⟩

/-- A non-panicking recreation preserves the invariant and leaves the
window size and vertex buffer alone. -/
lemma recreate_swapchain_inv (caps : SurfaceCapabilitiesM) (s s1 : VulkanStateM)
    (b : SwapchainBuildResultM) (hInv : Inv caps s)
    (h : recreate_swapchain s b = RecreateOutcomeM.ok s1) :
    Inv caps s1 ∧ s1.window_size = s.window_size ∧
    s1.vertex_buffer = s.vertex_buffer := by
  obtain ⟨h1, h2, h3, h4, h5, h6, h7, h8, h9⟩ := hInv
  cases b with
  | unsupported_dimensions =>
    injection h with h'
    subst h'
    exact ⟨⟨h1, h2, h3, h4, h5, h6, h7, h8, h9⟩, rfl, rfl⟩
  | other_error => exact RecreateOutcomeM.noConfusion h
  | ok =>
    injection h with h'
    subst h'
    exact ⟨⟨h1, rfl, rfl, h4, h5, h6, h7, h8, fun _ => rfl⟩, rfl, rfl⟩

lemma recreate_phase_inv (caps : SurfaceCapabilitiesM) (s : VulkanStateM)
    (input : TickInputM) (s1 : VulkanStateM) (hInv : Inv caps s)
    (h : recreate_phase s input = RecreateOutcomeM.ok s1) :
    Inv caps s1 ∧ s1.window_size = s.window_size ∧
    s1.vertex_buffer = s.vertex_buffer := by
  unfold recreate_phase at h
  split at h
  · exact recreate_swapchain_inv caps s s1 _ hInv h
  · injection h with h'
    subst h'
    exact ⟨hInv, rfl, rfl⟩

/-- Setting the recreate flag preserves the invariant. -/
lemma Inv_flag (caps : SurfaceCapabilitiesM) (s : VulkanStateM) (hInv : Inv caps s) :
    Inv caps { s with recreate_swapchain := true } := by
  obtain ⟨h1, h2, h3, h4, h5, h6, h7, h8, _⟩ := hInv
  exact ⟨h1, h2, h3, h4, h5, h6, h7, h8, fun hc => Bool.noConfusion hc⟩

/-- Replacing the in-flight future preserves the invariant. -/
lemma Inv_future (caps : SurfaceCapabilitiesM) (s : VulkanStateM) (g : GpuFutureM)
    (hInv : Inv caps s) : Inv caps { s with previous_frame_end := g } := hInv

/-- submit_phase preserves the invariant and only touches the recreate flag
and the in-flight future. -/
lemma submit_phase_state_inv (caps : SurfaceCapabilitiesM) (smid : VulkanStateM)
    (n : Nat) (f : FlushResultM) (s2 : VulkanStateM) (eff : TickEffectsM)
    (hInv : Inv caps smid)
    (h : submit_phase smid n f = StepResultM.next s2 eff) :
    Inv caps s2 ∧ s2.window_size = smid.window_size ∧
    s2.framebuffers = smid.framebuffers ∧ s2.viewport = smid.viewport ∧
    s2.vertex_buffer = smid.vertex_buffer ∧ s2.swapchain = smid.swapchain := by
  obtain ⟨hn, hsub, hcase⟩ := submit_phase_inv smid n f s2 eff h
  rcases hcase with ⟨hf, hs2, hl⟩ | ⟨hf, hs2, hl⟩ | ⟨hf, hs2, hl⟩ <;> subst hs2
  · exact ⟨Inv_future caps smid _ hInv, rfl, rfl, rfl, rfl, rfl⟩
  · exact ⟨Inv_future caps _ _ (Inv_flag caps smid hInv), rfl, rfl, rfl, rfl, rfl⟩
  · exact ⟨Inv_future caps smid _ hInv, rfl, rfl, rfl, rfl, rfl⟩

/-- acquire_phase preserves the invariant, the window size and the vertex
buffer. -/
lemma acquire_phase_state_inv (caps : SurfaceCapabilitiesM) (s1 : VulkanStateM)
    (input : TickInputM) (s2 : VulkanStateM) (eff : TickEffectsM)
    (hInv : Inv caps s1)
    (h : acquire_phase s1 input = StepResultM.next s2 eff) :
    Inv caps s2 ∧ s2.window_size = s1.window_size ∧
    s2.vertex_buffer = s1.vertex_buffer := by
  rcases acquire_phase_inv s1 input s2 eff h with ⟨_, hs2, _⟩ | ⟨n, sub, hacq, hsp⟩
  · subst hs2; exact ⟨Inv_flag caps s1 hInv, rfl, rfl⟩
  · have hmid : Inv caps (if sub then { s1 with recreate_swapchain := true } else s1) := by
      cases sub
      · exact hInv
      · exact Inv_flag caps s1 hInv
    obtain ⟨hi, hw, _, _, hv, _⟩ :=
      submit_phase_state_inv caps _ n input.flush s2 eff hmid hsp
    refine ⟨hi, ?_, ?_⟩
    · rw [hw]; cases sub <;> rfl
    · rw [hv]; cases sub <;> rfl

/-- A continuing redraw tick preserves the invariant. -/
lemma step_redraw_state_inv (caps : SurfaceCapabilitiesM) (s : VulkanStateM)
    (input : TickInputM) (s2 : VulkanStateM) (eff : TickEffectsM)
    (hInv : Inv caps s)
    (h : step_redraw s input = StepResultM.next s2 eff) :
    Inv caps s2 := by
  obtain ⟨s1, hrp, hap⟩ := step_redraw_next_inv s input s2 eff h
  obtain ⟨hi1, _, _⟩ := recreate_phase_inv caps s input s1 hInv hrp
  exact (acquire_phase_state_inv caps s1 input s2 eff hi1 hap).1

/-- Every continuing event-handler step preserves the invariant. -/
lemma handle_event_inv (caps : SurfaceCapabilitiesM) (s : VulkanStateM)
    (e : EventM) (s2 : VulkanStateM) (eff : TickEffectsM)
    (hInv : Inv caps s)
    (h : handle_event s e = StepResultM.next s2 eff) :
    Inv caps s2 := by
  cases e with
  | close_requested => exact StepResultM.noConfusion h
  | resized dims =>
    injection h with h1 h2
    subst h1
    obtain ⟨g1, g2, g3, g4, g5, g6, g7, g8, _⟩ := hInv
    exact ⟨g1, g2, g3, g4, g5, g6, g7, g8, fun hc => Bool.noConfusion hc⟩
  | redraw_events_cleared input =>
    exact step_redraw_state_inv caps s input s2 eff hInv h
  | other =>
    injection h with h1 h2
    subst h1
    exact hInv

/-- The startup state satisfies the invariant. -/
lemma init_inv (caps : SurfaceCapabilitiesM) (w : Dims) :
    Inv caps (init_state caps w) :=
  ⟨rfl, rfl, rfl, rfl, rfl, rfl, rfl, rfl, fun _ => rfl⟩

/-- Every reachable state satisfies the invariant. -/
lemma reachable_inv (caps : SurfaceCapabilitiesM) (s : VulkanStateM)
    (h : Reachable caps s) : Inv caps s := by
  induction h with
  | init w => exact init_inv caps w
  | step s e s2 eff hr hstep ih => exact handle_event_inv caps s e s2 eff ih hstep

/-- window_size_dependent_setup builds one framebuffer per image. -/
lemma length_wsds (images : List ImageM) :
    (window_size_dependent_setup images).2.length = images.length := by
  simp [window_size_dependent_setup]

/-- A built swapchain hands back num_images images. -/
lemma length_swapchain_images (sc : SwapchainM) :
    (swapchain_images sc).length = sc.num_images := by
  simp [swapchain_images]

/-- Under the invariant, the framebuffer count equals the swapchain's image
count. -/
lemma Inv_fb_length (caps : SurfaceCapabilitiesM) (s : VulkanStateM)
    (h : Inv caps s) : s.framebuffers.length = s.swapchain.num_images := by
  rw [h.2.1, length_wsds, length_swapchain_images]

/-- Every framebuffer window_size_dependent_setup builds has the dimensions
of one of the images. -/
lemma mem_wsds_fbs (images : List ImageM) (fb : FramebufferM)
    (h : fb ∈ (window_size_dependent_setup images).2) :
    ∃ img ∈ images, fb.dimensions = img.dimensions := by
  simp only [window_size_dependent_setup, List.mem_map] at h
  obtain ⟨img, hi, hfb⟩ := h
  exact ⟨img, hi, by rw [← hfb]⟩

/-- Under the invariant, every framebuffer has the swapchain's dimensions. -/
lemma Inv_fb_dims (caps : SurfaceCapabilitiesM) (s : VulkanStateM)
    (h : Inv caps s) :
    ∀ fb ∈ s.framebuffers, fb.dimensions = s.swapchain.dimensions := by
  intro fb hfb
  rw [h.2.1] at hfb
  obtain ⟨img, hi, hd⟩ := mem_wsds_fbs _ fb hfb
  rw [hd]
  exact congrArg ImageM.dimensions (List.eq_of_mem_replicate hi)

/-- Under the invariant, the stored viewport is the one derived from any
live framebuffer's dimensions. -/
lemma Inv_viewport_matches (caps : SurfaceCapabilitiesM) (s : VulkanStateM)
    (h : Inv caps s) :
    ∀ fb ∈ s.framebuffers, s.viewport = mk_viewport fb.dimensions := by
  intro fb hfb
  rw [Inv_fb_dims caps s h fb hfb, h.2.2.1]
  have hne : s.swapchain.num_images ≠ 0 := by
    intro h0
    have hlen := Inv_fb_length caps s h
    rw [h0, List.length_eq_zero] at hlen
    rw [hlen] at hfb
    exact List.not_mem_nil fb hfb
  obtain ⟨k, hk⟩ := Nat.exists_eq_succ_of_ne_zero hne
  simp [window_size_dependent_setup, swapchain_images, hk, List.replicate_succ]

/-- Under the invariant, a clear recreate flag means every framebuffer has
the live window's dimensions. -/
lemma Inv_fresh (caps : SurfaceCapabilitiesM) (s : VulkanStateM)
    (h : Inv caps s) : fb_fresh s := by
  intro hflag fb hfb
  rw [Inv_fb_dims caps s h fb hfb]
  exact h.2.2.2.2.2.2.2.2 hflag

/-- An in-range getD picks an element of the list. -/
lemma getD_mem {α : Type} (l : List α) (n : Nat) (d : α) (h : n < l.length) :
    l.getD n d ∈ l := by
  induction l generalizing n with
  | nil => simp at h
  | cons a l ih =>
    cases n with
    | zero => simp
    | succ m =>
      simp only [List.getD_cons_succ]
      exact List.mem_cons_of_mem a (ih m (by simpa using h))

/-- recreate_phase only ever changes the swapchain, viewport, framebuffers
and recreate flag. -/
lemma recreate_phase_fields (s : VulkanStateM) (input : TickInputM)
    (s1 : VulkanStateM) (h : recreate_phase s input = RecreateOutcomeM.ok s1) :
    s1.window_size = s.window_size ∧ s1.vertex_buffer = s.vertex_buffer ∧
    s1.images = s.images ∧ s1.previous_frame_end = s.previous_frame_end := by
  unfold recreate_phase at h
  split at h
  · cases hb : input.recreate_build <;> rw [hb] at h
    · injection h with h'
      subst h'
      exact ⟨rfl, rfl, rfl, rfl⟩
    · injection h with h'
      subst h'
      exact ⟨rfl, rfl, rfl, rfl⟩
    · exact RecreateOutcomeM.noConfusion h
  · injection h with h'
    subst h'
    exact ⟨rfl, rfl, rfl, rfl⟩

/-- Rewriting step_redraw once the recreation outcome is known. -/
lemma step_redraw_eq_of_recreate (s : VulkanStateM) (input : TickInputM)
    (s1 : VulkanStateM) (hrp : recreate_phase s input = RecreateOutcomeM.ok s1) :
    step_redraw s input = acquire_phase s1 input := by
  unfold step_redraw
  rw [hrp]

/-- Rewriting acquire_phase once the acquire outcome is known. -/
lemma acquire_phase_eq_of_ok (s1 : VulkanStateM) (input : TickInputM)
    (n : Nat) (sub : Bool) (hacq : input.acquire = AcquireResultM.ok n sub) :
    acquire_phase s1 input =
      submit_phase (if sub then { s1 with recreate_swapchain := true } else s1) n
        input.flush := by
  unfold acquire_phase
  rw [hacq]

/-- After the recreation phase of a tick that started with no pending
recreation, or whose pending recreation succeeded, the swapchain has the
live window's dimensions. -/
lemma recreate_phase_fresh (caps : SurfaceCapabilitiesM) (s : VulkanStateM)
    (input : TickInputM) (s1 : VulkanStateM) (hInv : Inv caps s)
    (hrp : recreate_phase s input = RecreateOutcomeM.ok s1)
    (hcond : s.recreate_swapchain = false ∨
      input.recreate_build = SwapchainBuildResultM.ok) :
    s1.swapchain.dimensions = s1.window_size := by
  unfold recreate_phase at hrp
  by_cases hflag : s.recreate_swapchain = true
  · rw [if_pos hflag] at hrp
    rcases hcond with hc | hc
    · rw [hflag] at hc; exact Bool.noConfusion hc
    · rw [hc] at hrp
      injection hrp with h'
      subst h'
      rfl
  · rw [if_neg hflag] at hrp
    injection hrp with h'
    subst h'
    have hfalse : s.recreate_swapchain = false := by
      cases hv : s.recreate_swapchain
      · rfl
      · exact absurd hv hflag
    exact hInv.2.2.2.2.2.2.2.2 hfalse

/-! ## C2 -/

/-- C2: on every redraw tick from a reachable state that reaches the
record-and-submit step (its effects carry a submitted command buffer), the
command buffer begins the render pass with clear color (0.1, 0.1, 0.1, 1.0),
sets the viewport, binds the pipeline and the vertex buffer, issues exactly
one draw of exactly 3 = len(vertex_buffer) vertices and 1 instance, and
ends the render pass — the same shape on every frame. -/
theorem recorded_command_buffer_shape (caps : SurfaceCapabilitiesM)
    (s : VulkanStateM) (input : TickInputM) (s2 : VulkanStateM)
    (eff : TickEffectsM) (cb : List CommandM)
    (hs : Reachable caps s)
    (h : step_redraw s input = StepResultM.next s2 eff)
    (hcb : eff.submitted = some cb) :
    ∃ fb vp,
      cb = [ CommandM.begin_render_pass fb SubpassContentsM.inline
               [((1 : ℚ)/10, (1 : ℚ)/10, (1 : ℚ)/10, (1 : ℚ))]
           , CommandM.set_viewport 0 [vp]
           , CommandM.bind_pipeline_graphics
           , CommandM.bind_vertex_buffers 0 vertex_data
           , CommandM.draw 3 1 0 0
           , CommandM.end_render_pass ] := by
  obtain ⟨s1, hrp, hap⟩ := step_redraw_next_inv s input s2 eff h
  obtain ⟨hi1, _, _⟩ :=
    recreate_phase_inv caps s input s1 (reachable_inv caps s hs) hrp
  rcases acquire_phase_inv s1 input s2 eff hap with ⟨_, _, heff⟩ | ⟨n, sub, hacq, hsp⟩
  · rw [heff] at hcb; exact Option.noConfusion hcb
  · have hmid : Inv caps (if sub then { s1 with recreate_swapchain := true } else s1) := by
      cases sub
      · exact hi1
      · exact Inv_flag caps s1 hi1
    obtain ⟨hn, hsubm, _⟩ := submit_phase_inv _ n input.flush s2 eff hsp
    rw [hcb] at hsubm
    injection hsubm with hcbeq
    subst hcbeq
    refine ⟨(if sub then { s1 with recreate_swapchain := true } else s1).framebuffers.getD n
        { dimensions := (0, 0) },
      (if sub then { s1 with recreate_swapchain := true } else s1).viewport, ?_⟩
    simp only [record_command_buffer, hmid.1]
    rfl

/-- C2 witness: the concrete startup state with a fully successful first
tick records exactly that command buffer. -/
theorem recorded_command_buffer_shape_witness :
    ∃ fb vp,
      cb800 = [ CommandM.begin_render_pass fb SubpassContentsM.inline
                  [((1 : ℚ)/10, (1 : ℚ)/10, (1 : ℚ)/10, (1 : ℚ))]
              , CommandM.set_viewport 0 [vp]
              , CommandM.bind_pipeline_graphics
              , CommandM.bind_vertex_buffers 0 vertex_data
              , CommandM.draw 3 1 0 0
              , CommandM.end_render_pass ] :=
  recorded_command_buffer_shape caps0 s800 tick_ok s_after_ok
    { submitted := some cb800, logs := [] } cb800
    (Reachable.init (800, 600)) rfl rfl

/-! ## C3 -/

/-- C3: on a continuing redraw tick, an out-of-date acquire sets the
recreate flag and skips the remainder of the tick (nothing is recorded,
submitted or logged), while a successful but suboptimal acquire sets the
recreate flag and still completes the tick's render. -/
theorem acquire_error_policy (s : VulkanStateM) (input : TickInputM)
    (s2 : VulkanStateM) (eff : TickEffectsM)
    (h : step_redraw s input = StepResultM.next s2 eff) :
    (input.acquire = AcquireResultM.out_of_date →
      s2.recreate_swapchain = true ∧ eff.submitted = none ∧ eff.logs = []) ∧
    (∀ n, input.acquire = AcquireResultM.ok n true →
      s2.recreate_swapchain = true ∧ eff.submitted.isSome = true) := by
  obtain ⟨s1, hrp, hap⟩ := step_redraw_next_inv s input s2 eff h
  constructor
  · intro hood
    rcases acquire_phase_inv s1 input s2 eff hap with ⟨_, hs2, heff⟩ | ⟨n, sub, hacq, _⟩
    · subst hs2; subst heff; exact ⟨rfl, rfl, rfl⟩
    · rw [hood] at hacq; exact AcquireResultM.noConfusion hacq
  · intro n hacq2
    rcases acquire_phase_inv s1 input s2 eff hap with ⟨hood, _, _⟩ | ⟨m, sub, hacq, hsp⟩
    · rw [hacq2] at hood; exact AcquireResultM.noConfusion hood
    · rw [hacq2] at hacq
      injection hacq with hm hsubeq
      subst hm
      subst hsubeq
      obtain ⟨_, hsubm, hcase⟩ := submit_phase_inv _ n input.flush s2 eff hsp
      rcases hcase with ⟨_, hs2, _⟩ | ⟨_, hs2, _⟩ | ⟨_, hs2, _⟩ <;> subst hs2 <;>
        exact ⟨rfl, by rw [hsubm]; rfl⟩

/-- C3 witness: from the startup state, an out-of-date acquire leaves the
tick with the flag set and nothing submitted. -/
theorem acquire_error_policy_witness :
    ({ s800 with recreate_swapchain := true } : VulkanStateM).recreate_swapchain = true ∧
    no_effects.submitted = none ∧ no_effects.logs = [] :=
  (acquire_error_policy s800 tick_acquire_ood
    { s800 with recreate_swapchain := true } no_effects rfl).1 rfl

/-! ## C4 -/

/-- C4: when a redraw tick reaches the flush of its submission-and-present
chain (its effects carry a submitted command buffer), an out-of-date flush
sets the recreate flag and resets the in-flight future to the trivial
already-completed sync::now state; any other flush error logs and resets
the future the same way; and for every flush outcome the tick continues
(no flush error is fatal). -/
theorem flush_error_policy (s : VulkanStateM) (input : TickInputM)
    (s2 : VulkanStateM) (eff : TickEffectsM)
    (h : step_redraw s input = StepResultM.next s2 eff)
    (hsub : eff.submitted.isSome = true) :
    (input.flush = FlushResultM.out_of_date →
      s2.recreate_swapchain = true ∧ s2.previous_frame_end = GpuFutureM.now) ∧
    (input.flush = FlushResultM.other_error →
      s2.previous_frame_end = GpuFutureM.now ∧
      eff.logs = [LogM.failed_to_flush_future]) ∧
    (∀ f, ∃ s3 eff3,
      step_redraw s { input with flush := f } = StepResultM.next s3 eff3) := by
  obtain ⟨s1, hrp, hap⟩ := step_redraw_next_inv s input s2 eff h
  rcases acquire_phase_inv s1 input s2 eff hap with ⟨_, _, heff⟩ | ⟨n, sub, hacq, hsp⟩
  · rw [heff] at hsub; exact Bool.noConfusion hsub
  · obtain ⟨hn, hsubm, hcase⟩ := submit_phase_inv _ n input.flush s2 eff hsp
    refine ⟨?_, ?_, ?_⟩
    · intro hf
      rcases hcase with ⟨hf2, hs2, _⟩ | ⟨hf2, hs2, _⟩ | ⟨hf2, hs2, _⟩
      · rw [hf] at hf2; exact FlushResultM.noConfusion hf2
      · subst hs2; exact ⟨rfl, rfl⟩
      · rw [hf] at hf2; exact FlushResultM.noConfusion hf2
    · intro hf
      rcases hcase with ⟨hf2, hs2, hl⟩ | ⟨hf2, hs2, hl⟩ | ⟨hf2, hs2, hl⟩
      · rw [hf] at hf2; exact FlushResultM.noConfusion hf2
      · rw [hf] at hf2; exact FlushResultM.noConfusion hf2
      · subst hs2; exact ⟨rfl, hl⟩
    · intro f
      have hrp2 : recreate_phase s { input with flush := f } =
          RecreateOutcomeM.ok s1 := hrp
      have hacq2 : ({ input with flush := f } : TickInputM).acquire =
          AcquireResultM.ok n sub := hacq
      obtain ⟨s3, eff3, hs3⟩ := submit_phase_total
        (if sub then { s1 with recreate_swapchain := true } else s1) n f hn
      refine ⟨s3, eff3, ?_⟩
      rw [step_redraw_eq_of_recreate s { input with flush := f } s1 hrp2,
          acquire_phase_eq_of_ok s1 { input with flush := f } n sub hacq2]
      exact hs3

/-- C4 witness: from the startup state, a tick whose flush reports
out-of-date sets the flag and resets the future. -/
theorem flush_error_policy_witness :
    ({ s800 with recreate_swapchain := true,
                 previous_frame_end := GpuFutureM.now } : VulkanStateM).recreate_swapchain
        = true ∧
    ({ s800 with recreate_swapchain := true,
                 previous_frame_end := GpuFutureM.now } : VulkanStateM).previous_frame_end
        = GpuFutureM.now :=
  (flush_error_policy s800 tick_flush_ood
    { s800 with recreate_swapchain := true, previous_frame_end := GpuFutureM.now }
    { submitted := some cb800, logs := [] } rfl rfl).1 rfl

/-! ## C5 -/

/-- C5: recreation with unsupported dimensions is a no-op that returns the
state entirely unchanged (so the prior swapchain, framebuffers and viewport
survive untouched), never panics, and lets the tick proceed; any other
swapchain build failure during recreation panics. -/
theorem recreate_error_policy (s : VulkanStateM) :
    recreate_swapchain s SwapchainBuildResultM.unsupported_dimensions =
      RecreateOutcomeM.ok s ∧
    recreate_swapchain s SwapchainBuildResultM.other_error =
      RecreateOutcomeM.panicked PanicMsgM.failed_to_recreate_swapchain ∧
    (∀ input : TickInputM,
      input.recreate_build = SwapchainBuildResultM.unsupported_dimensions →
      step_redraw s input = acquire_phase s input) := by
  refine ⟨rfl, rfl, ?_⟩
  intro input hb
  apply step_redraw_eq_of_recreate
  unfold recreate_phase
  rw [hb]
  split
  · rfl
  · rfl

/-- C5 witness: in the resized state with a pending recreation, a tick
whose recreation build reports unsupported dimensions continues into the
acquire phase on the unchanged state. -/
theorem recreate_error_policy_witness :
    step_redraw s_resized tick_unsup = acquire_phase s_resized tick_unsup :=
  (recreate_error_policy s_resized).2.2 tick_unsup rfl

/-! ## C6 -/

/-- C6: at startup one framebuffer is built per swapchain image and the
framebuffer count equals the swapchain's image count; the equality holds in
every reachable state (so it is restored by every successful recreation);
and the framebuffers never change across a continuing step unless the
swapchain changes with them. -/
theorem framebuffers_match_swapchain :
    (∀ caps (w : Dims),
      (init_state caps w).framebuffers.length = (init_state caps w).images.length ∧
      (init_state caps w).images.length = (init_state caps w).swapchain.num_images) ∧
    (∀ caps s, Reachable caps s →
      s.framebuffers.length = s.swapchain.num_images) ∧
    (∀ caps s e s2 eff, Reachable caps s →
      handle_event s e = StepResultM.next s2 eff →
      s2.framebuffers ≠ s.framebuffers → s2.swapchain ≠ s.swapchain) := by
  refine ⟨?_, ?_, ?_⟩
  · intro caps w
    exact ⟨length_wsds _, length_swapchain_images _⟩
  · intro caps s hr
    exact Inv_fb_length caps s (reachable_inv caps s hr)
  · intro caps s e s2 eff hr hstep hne hsc
    apply hne
    have h1 := (reachable_inv caps s hr).2.1
    have h2 := (handle_event_inv caps s e s2 eff (reachable_inv caps s hr) hstep).2.1
    rw [h1, h2, hsc]

/-- C6 witness: at the concrete startup state the counts agree, and a tick
that does recreate the swapchain changes it together with the framebuffers. -/
theorem framebuffers_match_swapchain_witness :
    s800.framebuffers.length = s800.swapchain.num_images ∧
    (∃ s2 eff,
      handle_event s_resized (EventM.redraw_events_cleared tick_ok) =
        StepResultM.next s2 eff ∧
      s2.swapchain ≠ s_resized.swapchain) := by
  have hreach : Reachable caps0 s_resized :=
    Reachable.step s800 (EventM.resized (400, 300)) s_resized no_effects
      (Reachable.init (800, 600)) rfl
  refine ⟨framebuffers_match_swapchain.2.1 caps0 s800 (Reachable.init (800, 600)), ?_⟩
  refine ⟨_, _, rfl, ?_⟩
  exact framebuffers_match_swapchain.2.2 caps0 s_resized
    (EventM.redraw_events_cleared tick_ok) _ _ hreach rfl (by decide)

/-! ## C7 (counterexample and amended form) -/

/-- C7 counterexample: from the startup state for an 800 x 600 window,
resize to 400 x 300 and run a redraw tick whose recreation build reports
unsupported dimensions. The tick still records and submits a frame, but it
renders into the old 800 x 600 framebuffers while the live window size is
400 x 300, so a frame is rendered with framebuffers whose dimensions differ
from the live window dimensions. -/
theorem stale_framebuffer_render :
    Reachable caps0 s_resized ∧
    step_redraw s_resized tick_unsup =
      StepResultM.next s_stale { submitted := some cb_stale, logs := [] } ∧
    s_stale.window_size = (400, 300) ∧
    cb_stale.head? = some (CommandM.begin_render_pass { dimensions := (800, 600) }
      SubpassContentsM.inline clear_values) ∧
    ¬ rendered_fb_matches cb_stale s_stale ∧
    ¬ all_fbs_match s_stale := by
  refine ⟨Reachable.step s800 (EventM.resized (400, 300)) s_resized no_effects
      (Reachable.init (800, 600)) rfl, rfl, rfl, rfl, ?_, ?_⟩
  · intro hmat
    have hx := hmat { dimensions := (800, 600) } SubpassContentsM.inline clear_values rfl
    exact absurd hx (by decide)
  · intro hall
    have hx := hall { dimensions := (800, 600) } (by decide)
    exact absurd hx (by decide)

/-- C7 amended: in every reachable state, whenever no recreation is pending
the live framebuffers match the current window size; and every tick that
renders while starting with no pending recreation, or whose pending
recreation succeeds, renders into framebuffers that match the live window
size. (A mismatch is possible only on a tick whose pending recreation was
skipped because the requested dimensions are unsupported.) -/
theorem framebuffer_dims_fresh :
    (∀ caps s, Reachable caps s → fb_fresh s) ∧
    (∀ caps s input s2 eff cb, Reachable caps s →
      step_redraw s input = StepResultM.next s2 eff →
      eff.submitted = some cb →
      (s.recreate_swapchain = false ∨
        input.recreate_build = SwapchainBuildResultM.ok) →
      all_fbs_match s2 ∧ rendered_fb_matches cb s2) := by
  constructor
  · intro caps s hr
    exact Inv_fresh caps s (reachable_inv caps s hr)
  · intro caps s input s2 eff cb hr hstep hcb hcond
    have hInv := reachable_inv caps s hr
    obtain ⟨s1, hrp, hap⟩ := step_redraw_next_inv s input s2 eff hstep
    obtain ⟨hi1, _, _⟩ := recreate_phase_inv caps s input s1 hInv hrp
    have hdim1 : s1.swapchain.dimensions = s1.window_size :=
      recreate_phase_fresh caps s input s1 hInv hrp hcond
    rcases acquire_phase_inv s1 input s2 eff hap with ⟨_, _, heff⟩ | ⟨n, sub, hacq, hsp⟩
    · rw [heff] at hcb; exact Option.noConfusion hcb
    · have hmid : Inv caps (if sub then { s1 with recreate_swapchain := true } else s1) := by
        cases sub
        · exact hi1
        · exact Inv_flag caps s1 hi1
      obtain ⟨hn, hsubm, _⟩ := submit_phase_inv _ n input.flush s2 eff hsp
      obtain ⟨hInv2, hw2, hfb2, _, _, hsc2⟩ :=
        submit_phase_state_inv caps _ n input.flush s2 eff hmid hsp
      have hdimmid :
          (if sub then { s1 with recreate_swapchain := true } else s1).swapchain.dimensions =
          (if sub then { s1 with recreate_swapchain := true } else s1).window_size := by
        cases sub
        · exact hdim1
        · exact hdim1
      have hall : all_fbs_match s2 := by
        intro fb hfb
        rw [Inv_fb_dims caps s2 hInv2 fb hfb, hsc2, hdimmid, ← hw2]
      refine ⟨hall, ?_⟩
      intro fb c cvs hhead
      rw [hcb] at hsubm
      injection hsubm with hcbeq
      subst hcbeq
      simp only [record_command_buffer, List.head?_cons, Option.some.injEq] at hhead
      injection hhead with h1 h2 h3
      rw [← h1]
      refine hall _ ?_
      rw [hfb2]
      exact getD_mem _ n _ hn

/-- C7 amended witness: the startup state is fresh, and the first fully
successful tick renders into framebuffers matching the live window size. -/
theorem framebuffer_dims_fresh_witness :
    fb_fresh s800 ∧ all_fbs_match s_after_ok ∧ rendered_fb_matches cb800 s_after_ok := by
  refine ⟨framebuffer_dims_fresh.1 caps0 s800 (Reachable.init (800, 600)), ?_, ?_⟩
  · exact (framebuffer_dims_fresh.2 caps0 s800 tick_ok s_after_ok
      { submitted := some cb800, logs := [] } cb800
      (Reachable.init (800, 600)) rfl rfl (Or.inl rfl)).1
  · exact (framebuffer_dims_fresh.2 caps0 s800 tick_ok s_after_ok
      { submitted := some cb800, logs := [] } cb800
      (Reachable.init (800, 600)) rfl rfl (Or.inl rfl)).2

/-! ## C8 -/

/-- C8: every swapchain the program builds (the startup one and every
recreated one, i.e. the swapchain of every reachable state) uses image
count equal to the surface's reported minimum, pixel format equal to the
first format the surface reports, composite-alpha equal to the first
supported mode, color-attachment-only usage, and exclusive sharing. -/
theorem swapchain_parameters (caps : SurfaceCapabilitiesM) (s : VulkanStateM)
    (fmt0 ca0 : Nat)
    (hf : caps.supported_formats.head? = some fmt0)
    (hc : caps.supported_composite_alpha.head? = some ca0)
    (hs : Reachable caps s) :
    s.swapchain.num_images = caps.min_image_count ∧
    s.swapchain.format = fmt0 ∧
    s.swapchain.composite_alpha = ca0 ∧
    s.swapchain.usage = image_usage_color_attachment ∧
    s.swapchain.sharing = SharingModeM.exclusive := by
  have hfmt : caps.supported_formats.getD 0 0 = fmt0 := by
    cases hl : caps.supported_formats with
    | nil => rw [hl] at hf; exact Option.noConfusion hf
    | cons a l =>
      rw [hl] at hf
      injection hf
  have hca : caps.supported_composite_alpha.getD 0 0 = ca0 := by
    cases hl : caps.supported_composite_alpha with
    | nil => rw [hl] at hc; exact Option.noConfusion hc
    | cons a l =>
      rw [hl] at hc
      injection hc
  obtain ⟨_, _, _, h4, h5, h6, h7, h8, _⟩ := reachable_inv caps s hs
  exact ⟨h4, by rw [h5]; exact hfmt, by rw [h6]; exact hca, h7, h8⟩

/-- C8 witness: the concrete startup swapchain uses the surface's minimum
image count, its first format (7) and first composite-alpha mode (1). -/
theorem swapchain_parameters_witness :
    s800.swapchain.num_images = caps0.min_image_count ∧
    s800.swapchain.format = 7 ∧
    s800.swapchain.composite_alpha = 1 ∧
    s800.swapchain.usage = image_usage_color_attachment ∧
    s800.swapchain.sharing = SharingModeM.exclusive :=
  swapchain_parameters caps0 s800 7 1 rfl rfl (Reachable.init (800, 600))

/-! ## C9 -/

/-- C9: the vertex buffer is created at startup containing exactly the
three vertices (0.5, 0.5), (-0.5, 0.5), (0.0, -0.5) in that order, no
continuing event-handler step ever changes it, and hence it holds those
three vertices in every reachable state. -/
theorem vertex_buffer_static :
    (∀ caps (w : Dims), (init_state caps w).vertex_buffer =
      ([(1/2, 1/2), (-1/2, 1/2), (0, -1/2)] : List (ℚ × ℚ))) ∧
    (∀ s e s2 eff, handle_event s e = StepResultM.next s2 eff →
      s2.vertex_buffer = s.vertex_buffer) ∧
    (∀ caps s, Reachable caps s → s.vertex_buffer = vertex_data) := by
  refine ⟨fun caps w => rfl, ?_, ?_⟩
  · intro s e s2 eff h
    cases e with
    | close_requested => exact StepResultM.noConfusion h
    | resized dims =>
      injection h with h1 h2
      subst h1
      rfl
    | other =>
      injection h with h1 h2
      subst h1
      rfl
    | redraw_events_cleared input =>
      obtain ⟨s1, hrp, hap⟩ := step_redraw_next_inv s input s2 eff h
      have hvb1 := (recreate_phase_fields s input s1 hrp).2.1
      rcases acquire_phase_inv s1 input s2 eff hap with ⟨_, hs2, _⟩ | ⟨n, sub, hacq, hsp⟩
      · subst hs2; exact hvb1
      · obtain ⟨_, _, hcase⟩ := submit_phase_inv _ n input.flush s2 eff hsp
        rcases hcase with ⟨_, hs2, _⟩ | ⟨_, hs2, _⟩ | ⟨_, hs2, _⟩ <;> subst hs2 <;>
          cases sub <;> exact hvb1
  · intro caps s hr
    exact (reachable_inv caps s hr).1

/-- C9 witness: the startup state holds exactly the three triangle
vertices. -/
theorem vertex_buffer_static_witness :
    s800.vertex_buffer = ([(1/2, 1/2), (-1/2, 1/2), (0, -1/2)] : List (ℚ × ℚ)) ∧
    s800.vertex_buffer = vertex_data :=
  ⟨vertex_buffer_static.1 caps0 (800, 600),
   vertex_buffer_static.2.2 caps0 s800 (Reachable.init (800, 600))⟩

/-! ## C10 -/

/-- C10: window_size_dependent_setup sets the stored viewport from the
dimensions of the first image (origin (0,0), depth range 0..1, via
mk_viewport) and builds the framebuffers from the very same images; in
every reachable state the stored viewport equals the viewport derived from
any live framebuffer's dimensions; and on every rendering tick from a
reachable state the set_viewport command binds exactly the viewport derived
from the dimensions of the framebuffer the render pass begins on. -/
theorem viewport_framebuffer_consistency :
    (∀ images : List ImageM,
      (window_size_dependent_setup images).1 =
        mk_viewport (images.getD 0 { dimensions := (0, 0) }).dimensions ∧
      (window_size_dependent_setup images).2 =
        images.map (fun img => ({ dimensions := img.dimensions } : FramebufferM))) ∧
    (∀ caps s, Reachable caps s →
      ∀ fb ∈ s.framebuffers, s.viewport = mk_viewport fb.dimensions) ∧
    (∀ caps s input s2 eff cb, Reachable caps s →
      step_redraw s input = StepResultM.next s2 eff →
      eff.submitted = some cb →
      ∀ fb c cvs, cb.head? = some (CommandM.begin_render_pass fb c cvs) →
        cb.getD 1 CommandM.end_render_pass =
          CommandM.set_viewport 0 [mk_viewport fb.dimensions]) := by
  refine ⟨fun images => ⟨rfl, rfl⟩, ?_, ?_⟩
  · intro caps s hr
    exact Inv_viewport_matches caps s (reachable_inv caps s hr)
  · intro caps s input s2 eff cb hr hstep hcb
    have hInv := reachable_inv caps s hr
    obtain ⟨s1, hrp, hap⟩ := step_redraw_next_inv s input s2 eff hstep
    obtain ⟨hi1, _, _⟩ := recreate_phase_inv caps s input s1 hInv hrp
    rcases acquire_phase_inv s1 input s2 eff hap with ⟨_, _, heff⟩ | ⟨n, sub, hacq, hsp⟩
    · rw [heff] at hcb; exact Option.noConfusion hcb
    · have hmid : Inv caps (if sub then { s1 with recreate_swapchain := true } else s1) := by
        cases sub
        · exact hi1
        · exact Inv_flag caps s1 hi1
      obtain ⟨hn, hsubm, _⟩ := submit_phase_inv _ n input.flush s2 eff hsp
      rw [hcb] at hsubm
      injection hsubm with hcbeq
      subst hcbeq
      intro fb c cvs hhead
      simp only [record_command_buffer, List.head?_cons, Option.some.injEq] at hhead
      injection hhead with h1 h2 h3
      have hvp := Inv_viewport_matches caps _ hmid
        ((if sub then { s1 with recreate_swapchain := true } else s1).framebuffers.getD n
          { dimensions := (0, 0) })
        (getD_mem _ n _ hn)
      simp only [record_command_buffer]
      rw [List.getD_cons_succ, List.getD_cons_zero, hvp, h1]

/-- C10 witness: at the startup state the stored viewport is derived from
the 800 x 600 framebuffers, and the first successful tick's set_viewport
command binds the viewport derived from the framebuffer it renders into. -/
theorem viewport_framebuffer_consistency_witness :
    s800.viewport = mk_viewport (800, 600) ∧
    cb800.getD 1 CommandM.end_render_pass =
      CommandM.set_viewport 0 [mk_viewport (800, 600)] := by
  constructor
  · exact viewport_framebuffer_consistency.2.1 caps0 s800 (Reachable.init (800, 600))
      { dimensions := (800, 600) } (by decide)
  · exact viewport_framebuffer_consistency.2.2 caps0 s800 tick_ok s_after_ok
      { submitted := some cb800, logs := [] } cb800
      (Reachable.init (800, 600)) rfl rfl
      { dimensions := (800, 600) } SubpassContentsM.inline clear_values rfl

end SnakeVulkan
